import Mathlib

/-!
Verification of the SEO research-assistant pipeline (planner → tool selector →
code generator → sandboxed executor → registry) against its specification.

The development shallowly embeds the relevant source functions:

* `clean_generated_code` (src/src/agents/seo_executor.py): the markdown-fence
  sanitizer, built from two regex substitutions (`^```(?:python|py)?\s*\n` and
  `` `\n```\s*$` `` with MULTILINE), `str.strip`, and boundary backtick
  splitting.  The two regexes are hand-compiled to character-list scanners with
  the exact leftmost, non-overlapping, greedy-with-backtracking semantics of
  Python `re.sub` (restricted to the ASCII whitespace class `[ \t\n\r\f\v]`,
  which is all the spec and claims exercise).
* `SEOToolSelector._select_for_step`, `_fallback_tools_for_server`,
  `_infer_category_from_goal` and the model-path post-processing of
  `select_for_plan` (src/src/agents/seo_tool_selector.py), together with the
  `SEO_CATEGORY_TOOL_HINTS` table.
* `SEOCodeExecutor._run_tool_bridge` / `execute` (src/src/agents/seo_executor.py),
  with the dynamically executed script abstracted to its observable behaviour
  (compile failure, missing entry point, or a sequence of bridge invocations
  followed by a return or an uncaught exception), and
* `SeoTools.run_tool` (src/src/tools/seo_tools.py) over an abstract loaded
  catalog.
-/

namespace McpSeo

/-- The backtick character, obtained from a string literal. -/
def tick : Char :=
  match "```".data with
  | c :: _ => c
  | [] => ' '

/-- Python whitespace (`\s` of `re` and `str.strip`), ASCII fragment:
space, tab, newline, carriage return, vertical tab, form feed. -/
def isPySpace (c : Char) : Bool :=
  c = ' ' || c = '\t' || c = '\n' || c = '\r' || c.val = 11 || c.val = 12

/-- Greedy match of `\s*\n` at the head of `cs`: the number of characters
consumed (all whitespace, the last one a newline), maximal, or `none` when no
prefix of whitespace ends in a newline. -/
def wsThenNL : List Char → Option Nat
  | [] => none
  | c :: cs =>
    if isPySpace c then
      match wsThenNL cs with
      | some n => some (n + 1)
      | none => if c = '\n' then some 1 else none
    else none

/-- Match `python\s*\n` at the head (first alternative of `(?:python|py)?`). -/
def tagPython (cs : List Char) : Option Nat :=
  match cs with
  | 'p' :: 'y' :: 't' :: 'h' :: 'o' :: 'n' :: rest => (wsThenNL rest).map (· + 6)
  | _ => none

/-- Match `py\s*\n` at the head (second alternative of `(?:python|py)?`). -/
def tagPy (cs : List Char) : Option Nat :=
  match cs with
  | 'p' :: 'y' :: rest => (wsThenNL rest).map (· + 2)
  | _ => none

/-- Match `(?:python|py)?\s*\n` at the head, following the regex engine's
backtracking order: `python` first, then `py`, then the empty alternative. -/
def fenceTail (cs : List Char) : Option Nat :=
  match tagPython cs with
  | some n => some n
  | none =>
    match tagPy cs with
    | some n => some n
    | none => wsThenNL cs

/-- Match the full pattern `` ```(?:python|py)?\s*\n `` at the head of `cs`
(the `^` anchor is handled by the caller, which only tries line starts). -/
def match1 (cs : List Char) : Option Nat :=
  match cs with
  | a :: b :: c :: rest =>
    if a = tick ∧ b = tick ∧ c = tick then (fenceTail rest).map (· + 3) else none
  | _ => none

/-- Greedy match of `\s*$` (MULTILINE) at the head of `cs`: the number of
whitespace characters consumed such that what follows is the end of the string
or a newline, maximal, or `none`. -/
def wsThenEnd : List Char → Option Nat
  | [] => some 0
  | c :: cs =>
    if isPySpace c then
      match wsThenEnd cs with
      | some n => some (n + 1)
      | none => if c = '\n' then some 0 else none
    else none

/-- Match the full pattern `` \n```\s*$ `` (MULTILINE) at the head of `cs`. -/
def match2 (cs : List Char) : Option Nat :=
  match cs with
  | a :: b :: c :: d :: rest =>
    if a = '\n' ∧ b = tick ∧ c = tick ∧ d = tick then (wsThenEnd rest).map (· + 4) else none
  | _ => none

/-- One fuelled pass of `re.sub(r'^```(?:python|py)?\s*\n', '', code, re.MULTILINE)`:
leftmost non-overlapping matches, tried only at line starts (`atStart`), each
replaced by the empty string.  A match always ends right after a newline, so
scanning resumes at a line start. -/
def sub1Fuel : Nat → Bool → List Char → List Char
  | 0, _, cs => cs
  | _ + 1, _, [] => []
  | n + 1, atStart, c :: rest =>
    match (if atStart then match1 (c :: rest) else none) with
    | some k => sub1Fuel n true ((c :: rest).drop k)
    | none => c :: sub1Fuel n (decide (c = '\n')) rest

/-- `re.sub` of the opening-fence pattern, starting with fuel equal to the
input length (always sufficient, as each step consumes at least one char). -/
def sub1Run (atStart : Bool) (cs : List Char) : List Char :=
  sub1Fuel cs.length atStart cs

/-- One fuelled pass of `re.sub(r'\n```\s*$', '', code, re.MULTILINE)`:
leftmost non-overlapping matches tried at every position. -/
def sub2Fuel : Nat → List Char → List Char
  | 0, cs => cs
  | _ + 1, [] => []
  | n + 1, c :: rest =>
    match match2 (c :: rest) with
    | some k => sub2Fuel n ((c :: rest).drop k)
    | none => c :: sub2Fuel n rest

/-- `re.sub` of the closing-fence pattern. -/
def sub2Run (cs : List Char) : List Char :=
  sub2Fuel cs.length cs

/-- Python `str.strip()` (ASCII whitespace fragment). -/
def pyStrip (cs : List Char) : List Char :=
  List.rdropWhile isPySpace (List.dropWhile isPySpace cs)

/-- Does the list start with three backticks (Python `startswith('```')`)? -/
def startsWithTicks (cs : List Char) : Bool :=
  match cs with
  | a :: b :: c :: _ => a = tick && b = tick && c = tick
  | _ => false

/-- Does the list end with three backticks (Python `endswith('```')`)? -/
def endsWithTicks (cs : List Char) : Bool :=
  startsWithTicks cs.reverse

/-- The residual boundary handling of `clean_generated_code`:
`split('```', 1)[-1]` under `startswith('```')` drops the first three
characters; `rsplit('```', 1)[0]` under `endswith('```')` drops the last
three. -/
def stripTicksEnds (cs : List Char) : List Char :=
  let c1 := if startsWithTicks cs then cs.drop 3 else cs
  if endsWithTicks c1 then c1.take (c1.length - 3) else c1

/-- `clean_generated_code` on character lists: the two regex substitutions,
then `strip`, the boundary backtick handling, and a final `strip`. -/
def cleanChars (cs : List Char) : List Char :=
  pyStrip (stripTicksEnds (pyStrip (sub2Run (sub1Run true cs))))

/-- `clean_generated_code` from src/src/agents/seo_executor.py. -/
def clean_generated_code (code : String) : String :=
  String.mk (cleanChars code.data)

/-! ### Tool selector (src/src/agents/seo_tool_selector.py) -/

/-- The `server` literal type `Literal["gsc", "dataforseo", "both", "none"]`. -/
inductive Server where
  | gsc
  | dataforseo
  | both
  | none
deriving DecidableEq, BEq, Repr

/-- One atomic step in the SEO plan (`PlanStep`, src/src/agents/seo_planner.py). -/
structure PlanStep where
  id : Int
  goal : String
  server : Server
  categories : List String
  required_inputs : List String
  notes : Option String
deriving DecidableEq, Repr

/-- Full plan for a user query (`QueryPlan`, src/src/agents/seo_planner.py). -/
structure QueryPlan where
  original_query : String
  summary : String
  steps : List PlanStep
deriving DecidableEq, Repr

/-- Selected tools for a single plan step (`ToolSelection`). -/
structure ToolSelection where
  step_id : Int
  server : Server
  step_goal : String
  selected_tool_names : List String
  notes : Option String
deriving DecidableEq, Repr

/-- Overall mapping from plan steps to selected tools (`PlanToolSelection`). -/
structure PlanToolSelection where
  original_query : String
  summary : String
  steps : List ToolSelection
deriving DecidableEq, Repr

/-- `SEO_CATEGORY_TOOL_HINTS` (src/src/agents/seo_tool_selector.py lines 8-180),
as an association list preserving dict insertion order: category key to the
inner server-keyed dict, itself an association list. -/
def SEO_CATEGORY_TOOL_HINTS : List (String × List (Server × List String)) :=
[  ("gsc_properties",
    [(Server.gsc,
     ["list_properties",
      "get_search_analytics",
      "get_site_details",
      "get_sitemaps",
      "inspect_url_enhanced",
      "batch_url_inspection",
      "check_indexing_issues",
      "get_performance_overview",
      "get_advanced_search_analytics",
      "compare_search_periods",
      "get_search_by_page_query",
      "list_sitemaps_enhanced",
      "get_sitemap_details",
      "submit_sitemap",
      "delete_sitemap",
      "manage_sitemaps"])]),
  ("gsc_pages",
    [(Server.gsc,
     ["get_search_analytics",
      "get_site_details",
      "get_sitemaps",
      "inspect_url_enhanced",
      "batch_url_inspection",
      "check_indexing_issues",
      "get_performance_overview",
      "get_advanced_search_analytics",
      "compare_search_periods",
      "get_search_by_page_query",
      "list_sitemaps_enhanced",
      "get_sitemap_details",
      "submit_sitemap",
      "delete_sitemap",
      "manage_sitemaps"])]),
  ("gsc_performance",
    [(Server.gsc,
     ["get_search_analytics",
      "get_performance_overview",
      "get_advanced_search_analytics",
      "compare_search_periods",
      "get_search_by_page_query"])]),
  ("gsc_queries",
    [(Server.gsc,
     ["get_search_analytics",
      "get_advanced_search_analytics",
      "compare_search_periods",
      "get_search_by_page_query"])]),
  ("technical_audit",
    [(Server.gsc,
     ["get_sitemaps",
      "inspect_url_enhanced",
      "check_indexing_issues",
      "list_sitemaps_enhanced",
      "get_sitemap_details",
      "submit_sitemap",
      "delete_sitemap",
      "manage_sitemaps"])]),
  ("gsc_misc",
    [(Server.gsc,
     ["get_creator_info"])]),
  ("keywords",
    [(Server.dataforseo,
     ["ai_optimization_keyword_data_locations_and_languages",
      "ai_optimization_keyword_data_search_volume",
      "keywords_data_google_ads_search_volume",
      "keywords_data_dataforseo_trends_demography",
      "keywords_data_dataforseo_trends_subregion_interests",
      "keywords_data_dataforseo_trends_explore",
      "keywords_data_google_trends_categories",
      "keywords_data_google_trends_explore",
      "dataforseo_labs_google_ranked_keywords",
      "dataforseo_labs_google_keyword_ideas",
      "dataforseo_labs_google_related_keywords",
      "dataforseo_labs_google_keyword_suggestions",
      "dataforseo_labs_bulk_keyword_difficulty",
      "dataforseo_labs_google_keyword_overview",
      "dataforseo_labs_google_keywords_for_site",
      "dataforseo_labs_google_historical_keyword_data"])]),
  ("serp",
    [(Server.dataforseo,
     ["serp_organic_live_advanced",
      "serp_locations",
      "serp_youtube_locations",
      "serp_youtube_organic_live_advanced",
      "serp_youtube_video_info_live_advanced",
      "serp_youtube_video_comments_live_advanced",
      "serp_youtube_video_subtitles_live_advanced",
      "dataforseo_labs_google_historical_serp",
      "dataforseo_labs_google_serp_competitors"])]),
  ("paid_search",
    [(Server.dataforseo,
     ["keywords_data_google_ads_search_volume"])]),
  ("dataforseo_misc",
    [(Server.dataforseo,
     ["on_page_content_parsing",
      "on_page_instant_pages",
      "on_page_lighthouse",
      "dataforseo_labs_google_competitors_domain",
      "dataforseo_labs_google_subdomains",
      "dataforseo_labs_google_top_searches",
      "dataforseo_labs_search_intent",
      "dataforseo_labs_google_domain_intersection",
      "dataforseo_labs_google_page_intersection",
      "dataforseo_labs_available_filters",
      "dataforseo_labs_google_relevant_pages",
      "business_data_business_listings_search",
      "domain_analytics_whois_overview",
      "domain_analytics_whois_available_filters",
      "domain_analytics_technologies_domain_technologies",
      "domain_analytics_technologies_available_filters",
      "content_analysis_search",
      "content_analysis_summary",
      "content_analysis_phrase_trends"])]),
  ("rank_tracking",
    [(Server.dataforseo,
     ["dataforseo_labs_google_ranked_keywords",
      "dataforseo_labs_google_domain_rank_overview",
      "dataforseo_labs_google_historical_rank_overview",
      "backlinks_bulk_ranks"])]),
  ("domain_insights",
    [(Server.dataforseo,
     ["dataforseo_labs_bulk_traffic_estimation"])]),
  ("backlinks",
    [(Server.dataforseo,
     ["backlinks_backlinks",
      "backlinks_anchors",
      "backlinks_bulk_backlinks",
      "backlinks_bulk_new_lost_referring_domains",
      "backlinks_bulk_new_lost_backlinks",
      "backlinks_bulk_ranks",
      "backlinks_bulk_referring_domains",
      "backlinks_bulk_spam_score",
      "backlinks_competitors",
      "backlinks_domain_intersection",
      "backlinks_domain_pages_summary",
      "backlinks_domain_pages",
      "backlinks_page_intersection",
      "backlinks_referring_domains",
      "backlinks_referring_networks",
      "backlinks_summary",
      "backlinks_timeseries_new_lost_summary",
      "backlinks_timeseries_summary",
      "backlinks_bulk_pages_summary",
      "backlinks_available_filters"])])]

/-- `SEO_CATEGORY_TOOL_HINTS.get(category, {})`. -/
def categoryHints (category : String) : List (Server × List String) :=
  (List.lookup category SEO_CATEGORY_TOOL_HINTS).getD []

/-- `SEO_CATEGORY_TOOL_HINTS.get(category, {}).get(server, [])`. -/
def hintsFor (category : String) (server : Server) : List String :=
  (List.lookup server (categoryHints category)).getD []

/-- ASCII `str.lower()` on a character list. -/
def toLowerL (cs : List Char) : List Char :=
  cs.map Char.toLower

/-- Is `p` a (contiguous) prefix of `t`? -/
def isPrefixB : List Char → List Char → Bool
  | [], _ => true
  | _ :: _, [] => false
  | a :: as, b :: bs => a = b && isPrefixB as bs

/-- Python `p in t` on strings: `p` occurs contiguously in `t`. -/
def isInfixB (p : List Char) : List Char → Bool
  | [] => isPrefixB p []
  | b :: bs => isPrefixB p (b :: bs) || isInfixB p bs

/-- `any(hint.lower() in tool_name.lower() for hint in hints)`. -/
def hintMatchB (hints : List String) (toolName : String) : Bool :=
  hints.any fun h => isInfixB (toLowerL h.data) (toLowerL toolName.data)

/-- `"gsc" in tool_name.lower()`. -/
def hasGscInName (toolName : String) : Bool :=
  isInfixB "gsc".data (toLowerL toolName.data)

/-- First-occurrence de-duplication with an accumulator of already-seen
elements: `list(dict.fromkeys(...))`. -/
def firstDedupAux (seen : List String) : List String → List String
  | [] => []
  | x :: xs =>
    if seen.contains x then firstDedupAux seen xs
    else x :: firstDedupAux (x :: seen) xs

/-- `list(dict.fromkeys(l))`. -/
def firstDedup (l : List String) : List String :=
  firstDedupAux [] l

namespace SEOToolSelector

/-- The category loop of `_select_for_step` (lines 406-422): for each category
of the step, every registry tool name passing the per-server `continue`
filters and the final hint-containment test, appended in registry order. -/
def candidateTools (step : PlanStep) (toolNames : List String) : List String :=
  (step.categories.map fun category =>
    let hints := hintsFor category step.server
    toolNames.filter fun toolName =>
      (match step.server with
       | Server.gsc => hintMatchB hints toolName || hasGscInName toolName
       | _ => true) &&
      (match step.server with
       | Server.dataforseo => hintMatchB hints toolName
       | _ => true) &&
      hintMatchB hints toolName).flatten

/-- `_infer_category_from_goal` (lines 491-520). -/
def infer_category_from_goal (goal : String) (server : Server) : Option String :=
  let g := toLowerL goal.data
  let has := fun (kws : List String) => kws.any fun k => isInfixB k.data g
  if has ["backlink", "referring domain", "anchor", "link profile"] then some "backlinks"
  else if has ["keyword", "search volume", "cpc", "keyword research", "keyword idea"] then
    some "keywords"
  else if has ["serp", "search result", "organic result", "ranking"] then some "serp"
  else if server = Server.gsc &&
      has ["performance", "traffic", "clicks", "impressions", "ctr"] then
    some "gsc_performance"
  else if server = Server.gsc && has ["query", "queries", "search query"] then
    some "gsc_queries"
  else if server = Server.gsc && has ["page", "pages", "url", "landing page"] then
    some "gsc_pages"
  else if has ["sitemap", "indexing", "coverage", "technical", "audit"] then
    some "technical_audit"
  else if has ["rank", "position", "ranking"] then some "rank_tracking"
  else none

/-- The candidate loop of the inferred-category retry (lines 431-439). -/
def inferredCandidateTools (server : Server) (inferred : String)
    (toolNames : List String) : List String :=
  let hints := hintsFor inferred server
  toolNames.filter fun toolName =>
    match server with
    | Server.dataforseo => hintMatchB hints toolName
    | Server.gsc => hasGscInName toolName && hintMatchB hints toolName
    | _ => false

/-- `_fallback_tools_for_server` (lines 468-489) with the default `max_tools=3`:
hint names collected over all categories in table order, kept when present in
the registry, de-duplicated first-seen, first three. -/
def fallback_tools_for_server (server : Server) (toolNames : List String) : List String :=
  if server = Server.none then []
  else
    firstDedup
      (((SEO_CATEGORY_TOOL_HINTS.map fun p => (List.lookup server p.2).getD []).flatten).filter
        fun n => toolNames.contains n) |>.take 3

/-- The candidate list and provenance note computed by `_select_for_step`
before the final truncation to 6 (lines 404-455). -/
def stepCandidatesWithNotes (step : PlanStep) (toolNames : List String) :
    List String × String :=
  if (firstDedup (candidateTools step toolNames)).isEmpty then
    match infer_category_from_goal step.goal step.server with
    | some inferred =>
      if ((firstDedup (inferredCandidateTools step.server inferred toolNames)).take 6).isEmpty then
        (fallback_tools_for_server step.server toolNames,
         "Used fallback tools for server; no category-based match found.")
      else
        ((firstDedup (inferredCandidateTools step.server inferred toolNames)).take 6,
         "Selected tools based on inferred category \x27" ++ inferred ++ "\x27 from step goal.")
    | Option.none =>
      (fallback_tools_for_server step.server toolNames,
       "Used fallback tools for server; no category-based match found.")
  else (firstDedup (candidateTools step toolNames),
        "Selected tools based on categories and name-hints.")

/-- `_select_for_step` (lines 389-466): heuristic per-step selection over the
registry's tool names (the keys of `tools_by_name` in iteration order). -/
def select_for_step (step : PlanStep) (toolNames : List String) : ToolSelection :=
  if step.server = Server.none then
    { step_id := step.id, server := step.server, step_goal := step.goal,
      selected_tool_names := [],
      notes := some "No tools needed (reasoning-only step)." }
  else
    { step_id := step.id, server := step.server, step_goal := step.goal,
      selected_tool_names := (stepCandidatesWithNotes step toolNames).1.take 6,
      notes := some (stepCandidatesWithNotes step toolNames).2 }

/-- The heuristic fallback path of `select_for_plan` (lines 252-266): the
per-step heuristic applied to every plan step. -/
def select_for_plan_fallback (plan : QueryPlan) (toolNames : List String) :
    PlanToolSelection :=
  { original_query := plan.original_query, summary := plan.summary,
    steps := plan.steps.map fun step => select_for_step step toolNames }

/-- The model-driven path's post-processing of one returned step
(lines 247-250): drop names not in the catalog, truncate to the first 6. -/
def postprocessSelection (validNames : List String) (sel : ToolSelection) :
    ToolSelection :=
  { sel with
    selected_tool_names := (sel.selected_tool_names.filter fun t =>
      validNames.contains t).take 6 }

/-- The model-driven path's post-processing of the whole structured result. -/
def postprocessPlanSelection (validNames : List String) (res : PlanToolSelection) :
    PlanToolSelection :=
  { res with steps := res.steps.map (postprocessSelection validNames) }

end SEOToolSelector

/-! ### Sandboxed executor (src/src/agents/seo_executor.py)

The dynamically executed Python is opaque to the embedding; what the claims
constrain is the executor's handling of its observable behaviour.  A script,
once sanitized and handed to `exec`, either fails to compile/parse, compiles
but defines no callable `run`, or yields a runnable entry point whose run is a
finite sequence of bridge invocations (each with the outcome the registry call
produced for it) followed by a normal return or an uncaught exception.  The
host scheduler is single-threaded and cooperative, so the invocations are
totally ordered. -/

/-- A raised Python exception as the executor observes it: class name,
message, and the (always non-empty) `traceback.format_exc()` rendering. -/
structure PyExc where
  cls : String
  msg : String
  tb : String
deriving DecidableEq, Repr

/-- `status` values of a tool-call log entry. -/
inductive CallStatus where
  | running
  | success
  | error
deriving DecidableEq, BEq, Repr

/-- One entry of `self.tool_logs`, with result values of type `V`.
Keys absent from the Python dict on a given path are `none`. -/
structure ToolLogEntry (V : Type) where
  tool_name : String
  args : V
  status : CallStatus
  start_time : Nat
  error : Option String
  result : Option V
  duration : Option Nat
  error_type : Option String
  traceback : Option String

/-- One invocation of the injected `run_tool` bridge: the arguments passed by
the generated code, the outcome `await self.seo_tools.run_tool(...)` produced,
and the two clock readings. -/
structure BridgeCall (V : Type) where
  tool_name : String
  args : V
  outcome : Except PyExc V
  t0 : Nat
  t1 : Nat

/-- `_run_tool_bridge` (lines 52-90): build a `running` entry, perform the
call, update the entry to `success`/`error`, append it, and return the result
or re-raise. -/
def run_tool_bridge {V : Type} (logs : List (ToolLogEntry V)) (c : BridgeCall V) :
    List (ToolLogEntry V) × Except PyExc V :=
  match c.outcome with
  | Except.ok v =>
    (logs ++ [{ tool_name := c.tool_name, args := c.args, status := CallStatus.success,
                start_time := c.t0, error := Option.none, result := some v,
                duration := some (c.t1 - c.t0), error_type := Option.none,
                traceback := Option.none }],
     Except.ok v)
  | Except.error e =>
    (logs ++ [{ tool_name := c.tool_name, args := c.args, status := CallStatus.error,
                start_time := c.t0, error := some e.msg, result := Option.none,
                duration := some (c.t1 - c.t0), error_type := some e.cls,
                traceback := some e.tb }],
     Except.error e)

/-- Observable behaviour of one invocation of the generated `run()`:
the bridge calls it makes, in order, and how it finishes. -/
structure RunBehavior (V : Type) where
  calls : List (BridgeCall V)
  outcome : Except PyExc V

/-- Observable behaviour of the sanitized script under `exec` and entry-point
lookup: a compile/parse failure, a namespace without a callable `run`, or a
runnable entry point. -/
inductive ScriptSem (V : Type) where
  | compileError (e : PyExc)
  | noEntryPoint
  | runnable (r : RunBehavior V)

/-- The structured result dictionary `execute` returns; keys that a given
path does not set are `none`. -/
structure ExecResult (V : Type) where
  ok : Bool
  result : Option V
  error : Option String
  traceback : Option String
  tool_logs : Option (List (ToolLogEntry V))

/-- The log produced by a run: the bridge folded over its calls, starting
from the empty list (`self.tool_logs = []` precedes the run). -/
def execLogs {V : Type} (calls : List (BridgeCall V)) : List (ToolLogEntry V) :=
  calls.foldl (fun logs c => (run_tool_bridge logs c).1) []

/-- `SEOCodeExecutor.execute` (lines 92-153) on the script's observable
behaviour, threading the executor's `self.tool_logs` state (`prevLogs` on
entry, second component on exit). -/
def SEOCodeExecutor.execute {V : Type} (prevLogs : List (ToolLogEntry V))
    (script : ScriptSem V) : ExecResult V × List (ToolLogEntry V) :=
  match script with
  | ScriptSem.compileError e =>
    ({ ok := false, result := Option.none,
       error := some ("Error compiling generated code: " ++ e.cls ++ ": " ++ e.msg),
       traceback := some e.tb, tool_logs := Option.none },
     prevLogs)
  | ScriptSem.noEntryPoint =>
    ({ ok := false, result := Option.none,
       error := some "Generated code did not define an async function \x27run\x27.",
       traceback := Option.none, tool_logs := Option.none },
     prevLogs)
  | ScriptSem.runnable r =>
    let logs := execLogs r.calls
    match r.outcome with
    | Except.ok v =>
      ({ ok := true, result := some v, error := Option.none,
         traceback := Option.none, tool_logs := some logs },
       logs)
    | Except.error e =>
      ({ ok := false, result := Option.none,
         error := some ("Error during execution of run(): " ++ e.cls ++ ": " ++ e.msg),
         traceback := some e.tb, tool_logs := some logs },
       logs)

/-! ### Tool registry (src/src/tools/seo_tools.py) -/

/-- A loaded tool descriptor: its remote invocation, mapping the JSON argument
object to the decoded result or the remote call's failure. -/
structure RemoteTool (V : Type) where
  ainvoke : V → Except PyExc V

/-- Failures of `SeoTools.run_tool`: the locally raised
`ValueError(f"Tool not found: {tool_name}")` when the name is absent from the
cached catalog, or a propagated failure of the remote call. -/
inductive RunToolError where
  | toolNotFound (msg : String)
  | remote (e : PyExc)
deriving DecidableEq, Repr

/-- `SeoTools.run_tool` (lines 128-143) over the loaded `_tools_by_name`
catalog: look the tool up by exact name, raise `ToolNotFound` when absent,
otherwise perform the remote call and return its result, propagating its
failure unchanged. -/
def SeoTools.run_tool {V : Type} (toolsByName : List (String × RemoteTool V))
    (tool_name : String) (args : V) : Except RunToolError V :=
  match List.lookup tool_name toolsByName with
  | Option.none => Except.error (RunToolError.toolNotFound ("Tool not found: " ++ tool_name))
  | some t =>
    match t.ainvoke args with
    | Except.ok v => Except.ok v
    | Except.error e => Except.error (RunToolError.remote e)

/-! ### Concrete instances used by witnesses and counterexamples -/

/-- A reasoning-only plan step (`server == "none"`). -/
def noneStep : PlanStep :=
  { id := 1, goal := "Summarize the findings", server := Server.none,
    categories := [], required_inputs := [], notes := Option.none }

/-- A step with `both` affinity carrying the `keywords` category. -/
def bothStep : PlanStep :=
  { id := 1, goal := "hello", server := Server.both, categories := ["keywords"],
    required_inputs := [], notes := Option.none }

/-- A `gsc` step whose only registry tool carries the `gsc` marker substring
but matches no hint of its category. -/
def gscMarkerStep : PlanStep :=
  { id := 1, goal := "hello", server := Server.gsc, categories := ["gsc_performance"],
    required_inputs := [], notes := Option.none }

/-- A structured-output step as the model could return it: `none` affinity but
a non-empty tool list naming a registry tool. -/
def noneSelection : ToolSelection :=
  { step_id := 1, server := Server.none, step_goal := "Summarize the findings",
    selected_tool_names := ["get_creator_info"], notes := Option.none }

/-- A structured-output step as the model could return it: a valid registry
name repeated twice. -/
def dupSelection : ToolSelection :=
  { step_id := 1, server := Server.gsc, step_goal := "g",
    selected_tool_names := ["get_creator_info", "get_creator_info"],
    notes := Option.none }

/-- Whether the position after `s` is a line start, given that the position
before `s` has line-start status `b` (for MULTILINE `^`). -/
def lineStartAfter (b : Bool) (s : List Char) : Bool :=
  s.foldl (fun _ c => decide (c = '\n')) b

/-- An opening markdown fence, with or without the `python` language tag:
`"```python\n"` or `"```\n"`. -/
def openFence (tag : Bool) : List Char :=
  if tag then tick :: tick :: tick :: 'p' :: 'y' :: 't' :: 'h' :: 'o' :: 'n' :: '\n' :: []
  else tick :: tick :: tick :: '\n' :: []

/-- A closing markdown fence, with or without a trailing newline:
`"\n```\n"` or `"\n```"`. -/
def closeFence (nl : Bool) : List Char :=
  if nl then '\n' :: tick :: tick :: tick :: '\n' :: []
  else '\n' :: tick :: tick :: tick :: []

/-- A script body wrapped in a markdown fence block. -/
def fenceWrap (tag nl : Bool) (s : List Char) : List Char :=
  openFence tag ++ s ++ closeFence nl

end McpSeo



namespace McpSeo

/-! ### Helper lemmas: executor call log -/

/-- The bridge appends exactly one entry, whose status is `success` or
`error`. -/
theorem run_tool_bridge_append {V : Type} (logs : List (ToolLogEntry V)) (c : BridgeCall V) :
    ∃ e, (run_tool_bridge logs c).1 = logs ++ [e] ∧
      (e.status = CallStatus.success ∨ e.status = CallStatus.error) := by
  cases h : c.outcome with
  | ok v =>
    refine ⟨{ tool_name := c.tool_name, args := c.args, status := CallStatus.success,
              start_time := c.t0, error := Option.none, result := some v,
              duration := some (c.t1 - c.t0), error_type := Option.none,
              traceback := Option.none }, ?_, Or.inl rfl⟩
    simp [run_tool_bridge, h]
  | error e =>
    refine ⟨{ tool_name := c.tool_name, args := c.args, status := CallStatus.error,
              start_time := c.t0, error := some e.msg, result := Option.none,
              duration := some (c.t1 - c.t0), error_type := some e.cls,
              traceback := some e.tb }, ?_, Or.inr rfl⟩
    simp [run_tool_bridge, h]

/-- Folding the bridge over a call list adds one entry per call. -/
theorem bridge_foldl_length {V : Type} :
    ∀ (calls : List (BridgeCall V)) (init : List (ToolLogEntry V)),
      (calls.foldl (fun logs c => (run_tool_bridge logs c).1) init).length =
        init.length + calls.length := by
  intro calls
  induction calls with
  | nil => intro init; simp
  | cons c cs ih =>
    intro init
    obtain ⟨e, he, -⟩ := run_tool_bridge_append init c
    simp [List.foldl_cons, he, ih]
    omega

/-- Folding the bridge preserves the absence of `running` entries. -/
theorem bridge_foldl_status {V : Type} :
    ∀ (calls : List (BridgeCall V)) (init : List (ToolLogEntry V)),
      (∀ e ∈ init, e.status ≠ CallStatus.running) →
      ∀ e ∈ calls.foldl (fun logs c => (run_tool_bridge logs c).1) init,
        e.status ≠ CallStatus.running := by
  intro calls
  induction calls with
  | nil => intro init h; simpa using h
  | cons c cs ih =>
    intro init h
    obtain ⟨e0, he0, hst⟩ := run_tool_bridge_append init c
    rw [List.foldl_cons, he0]
    refine ih (init ++ [e0]) ?_
    intro e he
    rcases List.mem_append.mp he with h1 | h1
    · exact h e h1
    · have : e = e0 := by simpa using h1
      subst this
      rcases hst with h2 | h2 <;> simp [h2]

/-! ### Claim theorems: executor -/

/-- C2: every result of `execute` on a runnable script carries `tool_logs`
computed from the empty per-run log regardless of the executor's previous log
state (the log is reset each run, so no earlier entry leaks in); the log has
exactly one entry per bridge invocation of that run; and no entry is left with
status `running`. -/
theorem executor_call_log_complete {V : Type} (prevLogs : List (ToolLogEntry V))
    (r : RunBehavior V) :
    (SEOCodeExecutor.execute prevLogs (ScriptSem.runnable r)).1.tool_logs =
        some (execLogs r.calls)
    ∧ (SEOCodeExecutor.execute prevLogs (ScriptSem.runnable r)).2 = execLogs r.calls
    ∧ (execLogs r.calls).length = r.calls.length
    ∧ (execLogs r.calls).all (fun e => decide (e.status ≠ CallStatus.running)) = true := by
  refine ⟨?_, ?_, ?_, ?_⟩
  · cases h : r.outcome <;> simp [SEOCodeExecutor.execute, h]
  · cases h : r.outcome <;> simp [SEOCodeExecutor.execute, h]
  · simpa [execLogs] using bridge_foldl_length r.calls []
  · rw [List.all_eq_true]
    intro e he
    have := bridge_foldl_status r.calls [] (by simp) e (by simpa [execLogs] using he)
    simpa using this

/-- C3: on a compile/parse failure of the generated script, `execute` returns
`ok = false`, an error string naming the exception class and message, the
(non-empty) traceback, no `tool_logs` key, and the per-run log state untouched
(no bridge invocation happens). -/
theorem executor_compile_failure {V : Type} (prevLogs : List (ToolLogEntry V))
    (e : PyExc) (h : e.tb ≠ "") :
    (SEOCodeExecutor.execute prevLogs (ScriptSem.compileError e)).1.ok = false
    ∧ (SEOCodeExecutor.execute prevLogs (ScriptSem.compileError e)).1.error =
        some ("Error compiling generated code: " ++ e.cls ++ ": " ++ e.msg)
    ∧ (SEOCodeExecutor.execute prevLogs (ScriptSem.compileError e)).1.traceback = some e.tb
    ∧ e.tb ≠ ""
    ∧ (SEOCodeExecutor.execute prevLogs (ScriptSem.compileError e)).1.tool_logs = Option.none
    ∧ (SEOCodeExecutor.execute prevLogs (ScriptSem.compileError e)).2 = prevLogs :=
  ⟨rfl, rfl, rfl, h, rfl, rfl⟩

/-- Witness for C3 at a concrete syntax error. -/
theorem executor_compile_failure_witness :
    (SEOCodeExecutor.execute ([] : List (ToolLogEntry Unit))
        (ScriptSem.compileError ⟨"SyntaxError", "invalid syntax",
          "Traceback (most recent call last): ..."⟩)).1.ok = false
    ∧ (SEOCodeExecutor.execute ([] : List (ToolLogEntry Unit))
        (ScriptSem.compileError ⟨"SyntaxError", "invalid syntax",
          "Traceback (most recent call last): ..."⟩)).1.error =
        some ("Error compiling generated code: " ++ "SyntaxError" ++ ": " ++ "invalid syntax")
    ∧ (SEOCodeExecutor.execute ([] : List (ToolLogEntry Unit))
        (ScriptSem.compileError ⟨"SyntaxError", "invalid syntax",
          "Traceback (most recent call last): ..."⟩)).1.traceback =
        some "Traceback (most recent call last): ..."
    ∧ "Traceback (most recent call last): ..." ≠ ""
    ∧ (SEOCodeExecutor.execute ([] : List (ToolLogEntry Unit))
        (ScriptSem.compileError ⟨"SyntaxError", "invalid syntax",
          "Traceback (most recent call last): ..."⟩)).1.tool_logs = Option.none
    ∧ (SEOCodeExecutor.execute ([] : List (ToolLogEntry Unit))
        (ScriptSem.compileError ⟨"SyntaxError", "invalid syntax",
          "Traceback (most recent call last): ..."⟩)).2 = ([] : List (ToolLogEntry Unit)) :=
  executor_compile_failure [] ⟨"SyntaxError", "invalid syntax",
    "Traceback (most recent call last): ..."⟩ (by decide)

/-- C4: when the sanitized script compiles but defines no callable `run`,
`execute` returns `ok = false` with the fixed descriptive error, no
`traceback` key, no `tool_logs` key, and the per-run log state untouched
(no tool invocation is attempted). -/
theorem executor_missing_entry {V : Type} (prevLogs : List (ToolLogEntry V)) :
    (SEOCodeExecutor.execute prevLogs (@ScriptSem.noEntryPoint V)).1 =
      { ok := false, result := Option.none,
        error := some "Generated code did not define an async function \x27run\x27.",
        traceback := Option.none, tool_logs := Option.none }
    ∧ (SEOCodeExecutor.execute prevLogs (@ScriptSem.noEntryPoint V)).2 = prevLogs :=
  ⟨rfl, rfl⟩

/-- C9: `run_tool` fails with the `ToolNotFound` condition exactly when the
name is absent from the loaded catalog; otherwise it is the remote call's
decoded result, with a remote failure propagated (wrapped as `remote`), never
swallowed. -/
theorem run_tool_not_found_spec {V : Type} (toolsByName : List (String × RemoteTool V))
    (tool_name : String) (args : V) :
    (SeoTools.run_tool toolsByName tool_name args =
        Except.error (RunToolError.toolNotFound ("Tool not found: " ++ tool_name))
      ↔ List.lookup tool_name toolsByName = Option.none)
    ∧ SeoTools.run_tool toolsByName tool_name args =
        (match List.lookup tool_name toolsByName with
         | Option.none =>
           Except.error (RunToolError.toolNotFound ("Tool not found: " ++ tool_name))
         | some t => (t.ainvoke args).mapError RunToolError.remote) := by
  cases h : List.lookup tool_name toolsByName with
  | none => exact ⟨by simp [SeoTools.run_tool, h], by simp [SeoTools.run_tool, h]⟩
  | some t =>
    cases ha : t.ainvoke args with
    | ok v =>
      refine ⟨?_, by simp [SeoTools.run_tool, h, ha, Except.mapError]⟩
      simp [SeoTools.run_tool, h, ha]
    | error e =>
      refine ⟨?_, by simp [SeoTools.run_tool, h, ha, Except.mapError]⟩
      simp [SeoTools.run_tool, h, ha]

end McpSeo

namespace McpSeo

/-! ### Helper lemmas: selector -/

/-- First-seen de-duplication: the result is duplicate-free, and its elements
come from the input and avoid the `seen` accumulator. -/
theorem firstDedupAux_spec :
    ∀ (l seen : List String),
      (firstDedupAux seen l).Nodup ∧
        ∀ x ∈ firstDedupAux seen l, x ∈ l ∧ x ∉ seen := by
  intro l
  induction l with
  | nil => intro seen; simp [firstDedupAux]
  | cons a l ih =>
    intro seen
    by_cases h : seen.contains a
    · obtain ⟨hnd, hmem⟩ := ih seen
      constructor
      · rw [firstDedupAux, if_pos h]
        exact hnd
      intro x hx
      rw [firstDedupAux, if_pos h] at hx
      obtain ⟨h1, h2⟩ := hmem x hx
      exact ⟨List.mem_cons_of_mem a h1, h2⟩
    · obtain ⟨hnd, hmem⟩ := ih (a :: seen)
      constructor
      · rw [firstDedupAux, if_neg h]
        refine List.nodup_cons.mpr ⟨?_, hnd⟩
        intro hx
        exact (hmem a hx).2 (List.mem_cons_self a seen)
      · intro x hx
        rw [firstDedupAux, if_neg h] at hx
        rcases List.mem_cons.mp hx with h1 | h1
        · subst h1
          refine ⟨List.mem_cons_self x l, ?_⟩
          intro hc
          exact h (List.elem_eq_true_of_mem hc)
        · obtain ⟨h1, h2⟩ := hmem x h1
          refine ⟨List.mem_cons_of_mem a h1, fun hc => h2 (List.mem_cons_of_mem a hc)⟩

/-- `firstDedup` is duplicate-free. -/
theorem firstDedup_nodup (l : List String) : (firstDedup l).Nodup :=
  (firstDedupAux_spec l []).1

/-- `firstDedup` keeps only elements of its input. -/
theorem firstDedup_subset {l : List String} {x : String}
    (h : x ∈ firstDedup l) : x ∈ l :=
  ((firstDedupAux_spec l []).2 x h).1

/-- The category-loop candidates are registry tool names. -/
theorem candidateTools_subset (step : PlanStep) (toolNames : List String)
    {x : String} (h : x ∈ SEOToolSelector.candidateTools step toolNames) :
    x ∈ toolNames := by
  unfold SEOToolSelector.candidateTools at h
  rw [List.mem_flatten] at h
  obtain ⟨l, hl, hx⟩ := h
  rw [List.mem_map] at hl
  obtain ⟨cat, -, rfl⟩ := hl
  exact (List.mem_filter.mp hx).1

/-- The inferred-category candidates are registry tool names. -/
theorem inferredCandidateTools_subset (server : Server) (inferred : String)
    (toolNames : List String) {x : String}
    (h : x ∈ SEOToolSelector.inferredCandidateTools server inferred toolNames) :
    x ∈ toolNames :=
  (List.mem_filter.mp h).1

/-- The fallback tools are duplicate-free registry tool names, at most 3. -/
theorem fallback_tools_spec (server : Server) (toolNames : List String) :
    (SEOToolSelector.fallback_tools_for_server server toolNames).Nodup ∧
      (∀ x ∈ SEOToolSelector.fallback_tools_for_server server toolNames, x ∈ toolNames) ∧
      (SEOToolSelector.fallback_tools_for_server server toolNames).length ≤ 3 := by
  unfold SEOToolSelector.fallback_tools_for_server
  by_cases h : server = Server.none
  · simp [h]
  · rw [if_neg h]
    refine ⟨(List.take_sublist _ _).nodup (firstDedup_nodup _), ?_, List.length_take_le _ _⟩
    intro x hx
    have hx1 := firstDedup_subset ((List.take_sublist _ _).mem hx)
    have := (List.mem_filter.mp hx1).2
    simpa [List.elem_iff] using this

/-- The candidate list computed by `_select_for_step` before truncation is
duplicate-free and drawn from the registry. -/
theorem stepCandidates_spec (step : PlanStep) (toolNames : List String) :
    (SEOToolSelector.stepCandidatesWithNotes step toolNames).1.Nodup ∧
      ∀ x ∈ (SEOToolSelector.stepCandidatesWithNotes step toolNames).1, x ∈ toolNames := by
  unfold SEOToolSelector.stepCandidatesWithNotes
  by_cases hc : (firstDedup (SEOToolSelector.candidateTools step toolNames)).isEmpty
  · rw [if_pos hc]
    cases hinf : SEOToolSelector.infer_category_from_goal step.goal step.server with
    | none =>
      obtain ⟨h1, h2, -⟩ := fallback_tools_spec step.server toolNames
      exact ⟨h1, h2⟩
    | some inferred =>
      dsimp only
      by_cases h1 : ((firstDedup (SEOToolSelector.inferredCandidateTools step.server
          inferred toolNames)).take 6).isEmpty
      · rw [if_pos h1]
        obtain ⟨ha, hb, -⟩ := fallback_tools_spec step.server toolNames
        exact ⟨ha, hb⟩
      · rw [if_neg h1]
        refine ⟨(List.take_sublist _ _).nodup (firstDedup_nodup _), ?_⟩
        intro x hx
        exact inferredCandidateTools_subset step.server inferred toolNames
          (firstDedup_subset ((List.take_sublist _ _).mem hx))
  · rw [if_neg hc]
    refine ⟨firstDedup_nodup _, ?_⟩
    intro x hx
    exact candidateTools_subset step toolNames (firstDedup_subset hx)

/-! ### Claim theorems: selector invariants (C1) -/

/-- C1 (amended): on the heuristic fallback path, every selection has between
0 and 6 names, no duplicates, and only names present in the registry; on the
model-driven path, the post-processing guarantees at most 6 names, all present
in the registry, but performs no de-duplication. -/
theorem selector_selection_bound (step : PlanStep) (toolNames : List String)
    (validNames : List String) (sel : ToolSelection) :
    ((SEOToolSelector.select_for_step step toolNames).selected_tool_names.length ≤ 6
      ∧ (SEOToolSelector.select_for_step step toolNames).selected_tool_names.Nodup
      ∧ (SEOToolSelector.select_for_step step toolNames).selected_tool_names.all
          (fun n => toolNames.contains n) = true)
    ∧ ((SEOToolSelector.postprocessSelection validNames sel).selected_tool_names.length ≤ 6
      ∧ (SEOToolSelector.postprocessSelection validNames sel).selected_tool_names.all
          (fun n => validNames.contains n) = true) := by
  constructor
  · unfold SEOToolSelector.select_for_step
    by_cases h : step.server = Server.none
    · simp [h]
    · rw [if_neg h]
      obtain ⟨hnd, hmem⟩ := stepCandidates_spec step toolNames
      refine ⟨List.length_take_le _ _, (List.take_sublist _ _).nodup hnd, ?_⟩
      rw [List.all_eq_true]
      intro x hx
      have := hmem x ((List.take_sublist _ _).mem hx)
      simpa [List.elem_iff] using this
  · unfold SEOToolSelector.postprocessSelection
    refine ⟨List.length_take_le _ _, ?_⟩
    rw [List.all_eq_true]
    intro x hx
    exact (List.mem_filter.mp ((List.take_sublist _ _).mem hx)).2

/-- Counterexample to C1 as stated: on the model-driven path, a structured
result repeating a valid registry name keeps the duplicate after
post-processing. -/
theorem selector_model_path_duplicates_counterexample :
    (SEOToolSelector.postprocessSelection ["get_creator_info"] dupSelection).selected_tool_names
      = ["get_creator_info", "get_creator_info"]
    ∧ ¬ (SEOToolSelector.postprocessSelection ["get_creator_info"]
        dupSelection).selected_tool_names.Nodup := by
  exact ⟨by decide, by decide⟩

end McpSeo

namespace McpSeo

/-! ### Helper lemmas: the `both` affinity -/

/-- A successful association-list lookup comes from a member pair. -/
theorem lookup_mem {α β : Type} [BEq α] [LawfulBEq α] :
    ∀ {l : List (α × β)} {k : α} {v : β}, List.lookup k l = some v → (k, v) ∈ l := by
  intro l
  induction l with
  | nil => intro k v h; simp [List.lookup] at h
  | cons p t ih =>
    intro k v h
    obtain ⟨a, b⟩ := p
    rw [List.lookup] at h
    cases hbeq : k == a with
    | true =>
      rw [hbeq] at h
      obtain rfl : b = v := by simpa using h
      have : k = a := eq_of_beq hbeq
      subst this
      exact List.mem_cons_self _ _
    | false =>
      rw [hbeq] at h
      exact List.mem_cons_of_mem _ (ih h)

/-- The hint table nests tool names only under the `gsc` and `dataforseo`
keys, so the per-server lookup for `both` is always empty. -/
theorem hintsFor_both (category : String) : hintsFor category Server.both = [] := by
  unfold hintsFor categoryHints
  cases h : List.lookup category SEO_CATEGORY_TOOL_HINTS with
  | none => rfl
  | some m =>
    have hm : m ∈ SEO_CATEGORY_TOOL_HINTS.map Prod.snd :=
      List.mem_map.mpr ⟨(category, m), lookup_mem h, rfl⟩
    have key : ∀ x ∈ SEO_CATEGORY_TOOL_HINTS.map Prod.snd,
        (List.lookup Server.both x).getD ([] : List String) = [] := by
      intro x hx
      fin_cases hx <;> rfl
    simpa using key m hm

/-- With an empty hint list, no tool name matches. -/
theorem hintMatchB_nil (toolName : String) : hintMatchB [] toolName = false := by
  simp [hintMatchB]

/-- For a `both` step, the category loop collects no candidate: the final
append condition requires a hint-substring match against the (empty) `both`
hint list. -/
theorem candidateTools_both (step : PlanStep) (toolNames : List String)
    (h : step.server = Server.both) :
    SEOToolSelector.candidateTools step toolNames = [] := by
  unfold SEOToolSelector.candidateTools
  simp [h, hintsFor_both, hintMatchB_nil]

/-- For `both`, the inferred-category retry loop appends nothing (its body
only handles the `dataforseo` and `gsc` literals). -/
theorem inferredCandidateTools_both (inferred : String) (toolNames : List String) :
    SEOToolSelector.inferredCandidateTools Server.both inferred toolNames = [] := by
  simp [SEOToolSelector.inferredCandidateTools]

/-- For `both`, the fixed fallback set is empty: every per-category lookup
under the `both` key yields no names. -/
theorem fallback_tools_both (toolNames : List String) :
    SEOToolSelector.fallback_tools_for_server Server.both toolNames = [] := by
  unfold SEOToolSelector.fallback_tools_for_server
  have hcoll : (SEO_CATEGORY_TOOL_HINTS.map
      fun p => (List.lookup Server.both p.2).getD []).flatten = ([] : List String) := by
    decide
  rw [if_neg (by intro hc; cases hc)]
  simp [hcoll, firstDedup, firstDedupAux]

/-! ### Claim theorems: C5, C6, C7 -/

/-- C5 (amended): in the heuristic fallback, a step with `both` affinity never
selects any tool: the category→tool hint lookup keyed by the literal server
string finds no `both` entry (the table nests only `gsc` and `dataforseo`),
so no tool qualifies via category matching or goal inference, and the fixed
fallback set for `both` is itself empty. -/
theorem selector_both_affinity_empty (step : PlanStep) (toolNames : List String)
    (h : step.server = Server.both) :
    (SEOToolSelector.select_for_step step toolNames).selected_tool_names = [] := by
  unfold SEOToolSelector.select_for_step
  rw [if_neg (by rw [h]; intro hc; cases hc)]
  have hmain : (SEOToolSelector.stepCandidatesWithNotes step toolNames).1 = [] := by
    unfold SEOToolSelector.stepCandidatesWithNotes
    rw [candidateTools_both step toolNames h, h]
    cases hinf : SEOToolSelector.infer_category_from_goal step.goal Server.both with
    | none => simp [fallback_tools_both, firstDedup, firstDedupAux]
    | some inferred =>
      simp [inferredCandidateTools_both, fallback_tools_both, firstDedup, firstDedupAux]
  simp [hmain]

/-- Witness for C5 at a concrete `both` step. -/
theorem selector_both_affinity_empty_witness :
    (SEOToolSelector.select_for_step bothStep
      ["keywords_data_google_ads_search_volume"]).selected_tool_names = [] :=
  selector_both_affinity_empty bothStep ["keywords_data_google_ads_search_volume"] rfl

/-- Counterexample to C5 as stated: a registry tool whose name contains a hint
substring of the step's category (here, the tool name itself is in the
`keywords` hint list) is nevertheless not selected for a `both` step — the
selection is empty, and so is the claimed ≤3-tool fallback. -/
theorem selector_both_affinity_counterexample :
    hintMatchB (hintsFor "keywords" Server.dataforseo)
        "keywords_data_google_ads_search_volume" = true
    ∧ "keywords_data_google_ads_search_volume" ∉
        SEOToolSelector.candidateTools bothStep ["keywords_data_google_ads_search_volume"]
    ∧ (SEOToolSelector.select_for_step bothStep
        ["keywords_data_google_ads_search_volume"]).selected_tool_names = [] := by
  refine ⟨by decide, by decide, by decide⟩

/-- C6 (amended): for a `gsc` step, a registry tool is a candidate of the
category loop iff its name contains a hint substring for one of the step's
categories under `gsc`; the `"gsc" in name` marker disjunct of the pre-filter
never adds a candidate, because the final append still requires a
hint-substring match. -/
theorem selector_gsc_candidate_iff (step : PlanStep) (toolNames : List String)
    (t : String) (h : step.server = Server.gsc) :
    t ∈ SEOToolSelector.candidateTools step toolNames ↔
      ∃ cat ∈ step.categories, t ∈ toolNames ∧
        hintMatchB (hintsFor cat Server.gsc) t = true := by
  unfold SEOToolSelector.candidateTools
  rw [List.mem_flatten]
  constructor
  · rintro ⟨l, hl, hx⟩
    rw [List.mem_map] at hl
    obtain ⟨cat, hcat, rfl⟩ := hl
    obtain ⟨hmem, hpred⟩ := List.mem_filter.mp hx
    rw [h] at hpred
    refine ⟨cat, hcat, hmem, ?_⟩
    dsimp only at hpred
    simp only [Bool.and_eq_true, Bool.or_eq_true] at hpred
    tauto
  · rintro ⟨cat, hcat, hmem, hhint⟩
    refine ⟨_, List.mem_map.mpr ⟨cat, hcat, rfl⟩, ?_⟩
    rw [List.mem_filter]
    refine ⟨hmem, ?_⟩
    rw [h]
    dsimp only
    simp only [Bool.and_eq_true, Bool.or_eq_true]
    tauto

/-- Witness for C6 at a concrete `gsc` step and registry. -/
theorem selector_gsc_candidate_iff_witness :
    "get_search_analytics" ∈
        SEOToolSelector.candidateTools gscMarkerStep ["get_search_analytics"] ↔
      ∃ cat ∈ gscMarkerStep.categories, "get_search_analytics" ∈ ["get_search_analytics"] ∧
        hintMatchB (hintsFor cat Server.gsc) "get_search_analytics" = true :=
  selector_gsc_candidate_iff gscMarkerStep ["get_search_analytics"]
    "get_search_analytics" rfl

/-- Counterexample to C6 as stated: a registry tool whose name carries the
`gsc` marker substring but matches no hint of the step's category is not a
candidate, and the step ends up selecting nothing. -/
theorem selector_gsc_marker_counterexample :
    hasGscInName "gsc_zzz" = true
    ∧ "gsc_zzz" ∉ SEOToolSelector.candidateTools gscMarkerStep ["gsc_zzz"]
    ∧ (SEOToolSelector.select_for_step gscMarkerStep ["gsc_zzz"]).selected_tool_names = [] := by
  refine ⟨by decide, by decide, by decide⟩

/-- C7 (amended): on the heuristic fallback path, a step with `none` affinity
always yields an empty selection; the model-driven path's post-processing does
not enforce this. -/
theorem selector_none_affinity_empty (step : PlanStep) (toolNames : List String)
    (h : step.server = Server.none) :
    (SEOToolSelector.select_for_step step toolNames).selected_tool_names = [] := by
  unfold SEOToolSelector.select_for_step
  rw [if_pos h]

/-- Witness for C7 at a concrete reasoning-only step. -/
theorem selector_none_affinity_empty_witness :
    (SEOToolSelector.select_for_step noneStep ["get_creator_info"]).selected_tool_names = [] :=
  selector_none_affinity_empty noneStep ["get_creator_info"] rfl

/-- Counterexample to C7 as stated: on the model-driven path, a structured
result whose `none`-affinity step names a valid registry tool keeps that tool
after post-processing — the selection is not forced empty. -/
theorem selector_none_affinity_model_counterexample :
    noneSelection.server = Server.none
    ∧ (SEOToolSelector.postprocessSelection ["get_creator_info"]
        noneSelection).selected_tool_names = ["get_creator_info"] := by
  exact ⟨rfl, by decide⟩

end McpSeo

namespace McpSeo

/-! ### Helper lemmas: the fence-stripping scanners -/

/-- An opening-fence match consumes at least the three backticks. -/
theorem match1_pos {cs : List Char} {k : Nat} (h : match1 cs = some k) : 3 ≤ k := by
  cases cs with
  | nil => exact Option.noConfusion h
  | cons a cs1 =>
    cases cs1 with
    | nil => exact Option.noConfusion h
    | cons b cs2 =>
      cases cs2 with
      | nil => exact Option.noConfusion h
      | cons c rest =>
        simp only [match1] at h
        by_cases hc : a = tick ∧ b = tick ∧ c = tick
        · rw [if_pos hc] at h
          cases hf : fenceTail rest with
          | none => rw [hf] at h; cases h
          | some m =>
            rw [hf] at h
            simp at h
            omega
        · rw [if_neg hc] at h; cases h

/-- A closing-fence match consumes at least `\n` plus the three backticks. -/
theorem match2_pos {cs : List Char} {k : Nat} (h : match2 cs = some k) : 4 ≤ k := by
  cases cs with
  | nil => exact Option.noConfusion h
  | cons a cs1 =>
    cases cs1 with
    | nil => exact Option.noConfusion h
    | cons b cs2 =>
      cases cs2 with
      | nil => exact Option.noConfusion h
      | cons c cs3 =>
        cases cs3 with
        | nil => exact Option.noConfusion h
        | cons d rest =>
          simp only [match2] at h
          by_cases hc : a = '\n' ∧ b = tick ∧ c = tick ∧ d = tick
          · rw [if_pos hc] at h
            cases hf : wsThenEnd rest with
            | none => rw [hf] at h; cases h
            | some m =>
              rw [hf] at h
              simp at h
              omega
          · rw [if_neg hc] at h; cases h

/-- Any sufficient fuel computes the same first-pass substitution. -/
theorem sub1Fuel_congr :
    ∀ (n m : Nat) (b : Bool) (cs : List Char),
      cs.length ≤ n → cs.length ≤ m → sub1Fuel n b cs = sub1Fuel m b cs := by
  intro n
  induction n with
  | zero =>
    intro m b cs hn _
    have : cs = [] := List.eq_nil_of_length_eq_zero (Nat.le_zero.mp hn)
    subst this
    cases m <;> rfl
  | succ n ih =>
    intro m b cs hn hm
    cases cs with
    | nil => cases m <;> rfl
    | cons c rest =>
      cases m with
      | zero => simp at hm
      | succ m =>
        rw [sub1Fuel, sub1Fuel]
        have hrest_n : rest.length ≤ n := by
          simp only [List.length_cons] at hn; omega
        have hrest_m : rest.length ≤ m := by
          simp only [List.length_cons] at hm; omega
        cases hmt : (if b then match1 (c :: rest) else none) with
        | none =>
          rw [ih m _ rest hrest_n hrest_m]
        | some k =>
          have hk : 3 ≤ k := by
            by_cases hb : b
            · rw [if_pos hb] at hmt; exact match1_pos hmt
            · rw [if_neg hb] at hmt; cases hmt
          have h1 : ((c :: rest).drop k).length ≤ n := by
            rw [List.length_drop]
            simp only [List.length_cons]
            omega
          have h2 : ((c :: rest).drop k).length ≤ m := by
            rw [List.length_drop]
            simp only [List.length_cons]
            omega
          dsimp only
          rw [ih m true _ h1 h2]

/-- Any sufficient fuel computes the same second-pass substitution. -/
theorem sub2Fuel_congr :
    ∀ (n m : Nat) (cs : List Char),
      cs.length ≤ n → cs.length ≤ m → sub2Fuel n cs = sub2Fuel m cs := by
  intro n
  induction n with
  | zero =>
    intro m cs hn _
    have : cs = [] := List.eq_nil_of_length_eq_zero (Nat.le_zero.mp hn)
    subst this
    cases m <;> rfl
  | succ n ih =>
    intro m cs hn hm
    cases cs with
    | nil => cases m <;> rfl
    | cons c rest =>
      cases m with
      | zero => simp at hm
      | succ m =>
        rw [sub2Fuel, sub2Fuel]
        have hrest_n : rest.length ≤ n := by
          simp only [List.length_cons] at hn; omega
        have hrest_m : rest.length ≤ m := by
          simp only [List.length_cons] at hm; omega
        cases hmt : match2 (c :: rest) with
        | none => rw [ih m rest hrest_n hrest_m]
        | some k =>
          have hk : 4 ≤ k := match2_pos hmt
          have h1 : ((c :: rest).drop k).length ≤ n := by
            rw [List.length_drop]; simp only [List.length_cons]; omega
          have h2 : ((c :: rest).drop k).length ≤ m := by
            rw [List.length_drop]; simp only [List.length_cons]; omega
          dsimp only
          rw [ih m _ h1 h2]

/-- First pass, no match at this position: emit the character. -/
theorem sub1Run_cons_of_none {c : Char} {cs : List Char} (b : Bool)
    (h : match1 (c :: cs) = none) :
    sub1Run b (c :: cs) = c :: sub1Run (decide (c = '\n')) cs := by
  unfold sub1Run
  rw [List.length_cons, sub1Fuel]
  cases b <;> simp [h]

/-- First pass, match at this position: delete the matched characters. -/
theorem sub1Run_match {cs : List Char} {k : Nat} (h : match1 cs = some k) :
    sub1Run true cs = sub1Run true (cs.drop k) := by
  cases cs with
  | nil => exact Option.noConfusion h
  | cons c rest =>
    unfold sub1Run
    rw [List.length_cons, sub1Fuel]
    simp only [if_true, h]
    apply sub1Fuel_congr
    · rw [List.length_drop]
      simp only [List.length_cons]
      have := match1_pos h
      omega
    · exact Nat.le_refl _

/-- A position whose character is not a backtick starts no opening-fence
match. -/
theorem match1_none_head {c : Char} {cs : List Char} (h : c ≠ tick) :
    match1 (c :: cs) = none := by
  cases cs with
  | nil => rfl
  | cons b cs2 =>
    cases cs2 with
    | nil => rfl
    | cons d rest =>
      simp only [match1]
      rw [if_neg]
      intro hc
      exact h hc.1

/-- `lineStartAfter` over a cons. -/
theorem lineStartAfter_cons (b : Bool) (c : Char) (s : List Char) :
    lineStartAfter b (c :: s) = lineStartAfter (decide (c = '\n')) s := rfl

/-- The first pass copies a backtick-free block unchanged and continues with
the block's final line-start status. -/
theorem sub1Run_append {s : List Char} (t : List Char) (b : Bool)
    (hs : ∀ c ∈ s, c ≠ tick) :
    sub1Run b (s ++ t) = s ++ sub1Run (lineStartAfter b s) t := by
  induction s generalizing b with
  | nil => simp [lineStartAfter]
  | cons c s ih =>
    have hc : c ≠ tick := hs c (List.mem_cons_self c s)
    rw [List.cons_append, sub1Run_cons_of_none b (match1_none_head hc),
        ih _ (fun x hx => hs x (List.mem_cons_of_mem c hx)), lineStartAfter_cons,
        List.cons_append]

/-- The first pass on the empty input. -/
theorem sub1Run_nil (b : Bool) : sub1Run b [] = [] := rfl

/-- The first pass is the identity on backtick-free text. -/
theorem sub1Run_tickfree {s : List Char} (b : Bool) (hs : ∀ c ∈ s, c ≠ tick) :
    sub1Run b s = s := by
  have h := sub1Run_append [] b hs
  simpa [sub1Run_nil] using h

/-- A position whose successor character is not a backtick starts no
closing-fence match. -/
theorem match2_none_second {c : Char} {cs : List Char}
    (h : ∀ x ∈ cs.take 1, x ≠ tick) : match2 (c :: cs) = none := by
  cases cs with
  | nil => rfl
  | cons b cs2 =>
    have hb : b ≠ tick := h b (by simp)
    cases cs2 with
    | nil => rfl
    | cons d cs3 =>
      cases cs3 with
      | nil => rfl
      | cons e rest =>
        simp only [match2]
        rw [if_neg]
        intro hc
        exact hb hc.2.1

/-- Second pass, no match at this position: emit the character. -/
theorem sub2Run_cons_of_none {c : Char} {cs : List Char}
    (h : match2 (c :: cs) = none) :
    sub2Run (c :: cs) = c :: sub2Run cs := by
  unfold sub2Run
  rw [List.length_cons, sub2Fuel, h]

/-- Second pass, match at this position: delete the matched characters. -/
theorem sub2Run_match {cs : List Char} {k : Nat} (h : match2 cs = some k) :
    sub2Run cs = sub2Run (cs.drop k) := by
  cases cs with
  | nil => exact Option.noConfusion h
  | cons c rest =>
    unfold sub2Run
    rw [List.length_cons, sub2Fuel, h]
    apply sub2Fuel_congr
    · rw [List.length_drop]
      simp only [List.length_cons]
      have := match2_pos h
      omega
    · exact Nat.le_refl _

/-- The second pass copies a backtick-free block unchanged, provided the
continuation does not begin with a backtick. -/
theorem sub2Run_append {s : List Char} (t : List Char)
    (hs : ∀ c ∈ s, c ≠ tick) (ht : ∀ x ∈ t.take 1, x ≠ tick) :
    sub2Run (s ++ t) = s ++ sub2Run t := by
  induction s with
  | nil => simp
  | cons c s ih =>
    have key : match2 (c :: (s ++ t)) = none := by
      cases s with
      | nil => exact match2_none_second (by simpa using ht)
      | cons d s2 =>
        refine match2_none_second ?_
        intro x hx
        simp only [List.cons_append, List.take_succ_cons, List.take_zero] at hx
        have : x = d := by simpa using hx
        subst this
        exact hs x (List.mem_cons_of_mem c (List.mem_cons_self x s2))
    rw [List.cons_append, sub2Run_cons_of_none key,
        ih (fun x hx => hs x (List.mem_cons_of_mem c hx)), List.cons_append]

/-- The second pass on the empty input. -/
theorem sub2Run_nil : sub2Run [] = [] := rfl

/-- The second pass is the identity on backtick-free text. -/
theorem sub2Run_tickfree {s : List Char} (hs : ∀ c ∈ s, c ≠ tick) :
    sub2Run s = s := by
  have h := sub2Run_append [] hs (by simp)
  simpa [sub2Run_nil] using h

end McpSeo

namespace McpSeo

/-! ### Helper lemmas: strip and boundary backticks -/

/-- `strip` is the identity when both ends are non-whitespace. -/
theorem pyStrip_id {cs : List Char} (hne : cs ≠ [])
    (hh : isPySpace cs.headI = false) (hl : isPySpace cs.getLastI = false) :
    pyStrip cs = cs := by
  have h1 : List.dropWhile isPySpace cs = cs := by
    cases cs with
    | nil => rfl
    | cons c t =>
      have hc : isPySpace c = false := hh
      rw [List.dropWhile_cons, hc]
      simp
  unfold pyStrip
  rw [h1]
  rcases List.eq_nil_or_concat cs with rfl | ⟨L, x, rfl⟩
  · rfl
  · rw [List.concat_eq_append] at hl ⊢
    have hx : isPySpace x = false := by
      rwa [List.getLastI_eq_getLast?, List.getLast?_concat, Option.iget_some] at hl
    exact List.rdropWhile_concat_neg _ _ _ (by simp [hx])

/-- `strip` of a body followed by exactly one newline removes only that
newline, when the body's ends are non-whitespace. -/
theorem pyStrip_append_nl {s : List Char} (hne : s ≠ [])
    (hh : isPySpace s.headI = false) (hl : isPySpace s.getLastI = false) :
    pyStrip (s ++ ['\n']) = s := by
  have h1 : List.dropWhile isPySpace (s ++ ['\n']) = s ++ ['\n'] := by
    cases s with
    | nil => simp at hne
    | cons c t =>
      have hc : isPySpace c = false := hh
      rw [List.cons_append, List.dropWhile_cons, hc]
      simp
  unfold pyStrip
  rw [h1, List.rdropWhile_concat_pos _ _ _ (by decide)]
  rcases List.eq_nil_or_concat s with rfl | ⟨L, x, rfl⟩
  · simp at hne
  · rw [List.concat_eq_append] at hl ⊢
    have hx : isPySpace x = false := by
      rwa [List.getLastI_eq_getLast?, List.getLast?_concat, Option.iget_some] at hl
    exact List.rdropWhile_concat_neg _ _ _ (by simp [hx])

/-- Elements survive `dropWhile`. -/
theorem mem_of_dropWhile {p : Char → Bool} {l : List Char} {x : Char}
    (h : x ∈ List.dropWhile p l) : x ∈ l := by
  obtain ⟨t, ht⟩ := List.dropWhile_suffix (l := l) p
  rw [← ht]
  exact List.mem_append_right t h

/-- Elements survive `strip`. -/
theorem pyStrip_subset {cs : List Char} {x : Char} (h : x ∈ pyStrip cs) : x ∈ cs := by
  unfold pyStrip List.rdropWhile at h
  rw [List.mem_reverse] at h
  have h2 := mem_of_dropWhile h
  rw [List.mem_reverse] at h2
  exact mem_of_dropWhile h2

/-- `rdropWhile` does not change the head of a non-empty result. -/
theorem rdropWhile_headI (p : Char → Bool) (l : List Char)
    (h : List.rdropWhile p l ≠ []) :
    (List.rdropWhile p l).headI = l.headI := by
  induction l using List.reverseRecOn with
  | nil => simp [List.rdropWhile_nil] at h
  | append_singleton L x ih =>
    by_cases hp : p x
    · rw [List.rdropWhile_concat_pos _ _ _ hp] at h ⊢
      rw [ih h]
      have hL : L ≠ [] := by
        intro hL
        subst hL
        simp [List.rdropWhile_nil] at h
      cases L with
      | nil => simp at hL
      | cons a t => rfl
    · rw [List.rdropWhile_concat_neg _ _ _ hp]

/-- The head of a non-empty `dropWhile` result fails the predicate. -/
theorem dropWhile_headI_false (p : Char → Bool) :
    ∀ (l : List Char), List.dropWhile p l ≠ [] → p (List.dropWhile p l).headI = false := by
  intro l
  induction l with
  | nil => intro h; simp at h
  | cons c t ih =>
    intro h
    by_cases hp : p c
    · rw [List.dropWhile_cons, if_pos hp] at h ⊢
      exact ih h
    · rw [List.dropWhile_cons, if_neg hp] at h ⊢
      simpa using hp

/-- The head of a non-empty `strip` result is non-whitespace. -/
theorem pyStrip_headI (cs : List Char) (h : pyStrip cs ≠ []) :
    isPySpace (pyStrip cs).headI = false := by
  unfold pyStrip at h ⊢
  rw [rdropWhile_headI _ _ h]
  apply dropWhile_headI_false
  intro hc
  rw [hc, List.rdropWhile_nil] at h
  exact h rfl

/-- The last element of a non-empty `strip` result is non-whitespace. -/
theorem pyStrip_getLastI (cs : List Char) (h : pyStrip cs ≠ []) :
    isPySpace (pyStrip cs).getLastI = false := by
  have := List.rdropWhile_last_not isPySpace (List.dropWhile isPySpace cs) h
  rw [List.getLastI_eq_getLast?, List.getLast?_eq_getLast _ h, Option.iget_some]
  simpa using this

/-- `strip` is idempotent. -/
theorem pyStrip_idem (cs : List Char) : pyStrip (pyStrip cs) = pyStrip cs := by
  by_cases h : pyStrip cs = []
  · rw [h]; rfl
  · exact pyStrip_id h (pyStrip_headI cs h) (pyStrip_getLastI cs h)

/-- A backtick-free list does not start with three backticks. -/
theorem startsWithTicks_false {cs : List Char} (h : ∀ c ∈ cs, c ≠ tick) :
    startsWithTicks cs = false := by
  cases cs with
  | nil => rfl
  | cons a t =>
    cases t with
    | nil => rfl
    | cons b t2 =>
      cases t2 with
      | nil => rfl
      | cons c t3 =>
        have ha : a ≠ tick := h a (by simp)
        simp [startsWithTicks, ha]

/-- A backtick-free list does not end with three backticks. -/
theorem endsWithTicks_false {cs : List Char} (h : ∀ c ∈ cs, c ≠ tick) :
    endsWithTicks cs = false := by
  unfold endsWithTicks
  exact startsWithTicks_false fun c hc => h c (List.mem_reverse.mp hc)

/-- The boundary backtick handling is the identity on text with neither
boundary fence. -/
theorem stripTicksEnds_id {cs : List Char} (h1 : startsWithTicks cs = false)
    (h2 : endsWithTicks cs = false) : stripTicksEnds cs = cs := by
  unfold stripTicksEnds
  simp [h1, h2]

/-- On backtick-free input, the sanitizer is exactly `strip`. -/
theorem cleanChars_tickfree {cs : List Char} (h : ∀ c ∈ cs, c ≠ tick) :
    cleanChars cs = pyStrip cs := by
  unfold cleanChars
  rw [sub1Run_tickfree true h, sub2Run_tickfree h]
  have hsub : ∀ c ∈ pyStrip cs, c ≠ tick := fun c hc => h c (pyStrip_subset hc)
  rw [stripTicksEnds_id (startsWithTicks_false hsub) (endsWithTicks_false hsub),
      pyStrip_idem]

end McpSeo

namespace McpSeo

/-! ### Helper lemmas: matching the wrapper fences -/

/-- `\s*\n` right after a fence line consumes exactly the newline when the
following character is non-whitespace. -/
theorem wsThenNL_stop {c0 : Char} (rest : List Char) (hc : isPySpace c0 = false) :
    wsThenNL ('\n' :: c0 :: rest) = some 1 := by
  have hin : wsThenNL (c0 :: rest) = none := by
    rw [wsThenNL, if_neg (by simp [hc])]
  rw [wsThenNL, if_pos (by decide), hin]
  rfl

/-- The opening fence (with or without tag) matches at the start of a wrapped
script whose body starts with a non-whitespace character, consuming exactly
the fence line. -/
theorem match1_openFence (tag : Bool) {c0 : Char} (rest : List Char)
    (hc : isPySpace c0 = false) :
    match1 (openFence tag ++ c0 :: rest) = some (openFence tag).length := by
  have hws := wsThenNL_stop rest hc
  cases tag with
  | false =>
    show match1 (tick :: tick :: tick :: '\n' :: c0 :: rest) = some 4
    rw [match1, if_pos ⟨rfl, rfl, rfl⟩]
    have h1 : tagPython ('\n' :: c0 :: rest) = none := rfl
    have h2 : tagPy ('\n' :: c0 :: rest) = none := rfl
    rw [fenceTail, h1]
    dsimp only
    rw [h2]
    dsimp only
    rw [hws]
    rfl
  | true =>
    show match1 (tick :: tick :: tick :: 'p' :: 'y' :: 't' :: 'h' :: 'o' :: 'n' ::
      '\n' :: c0 :: rest) = some 10
    rw [match1, if_pos ⟨rfl, rfl, rfl⟩]
    have h1 : tagPython ('p' :: 'y' :: 't' :: 'h' :: 'o' :: 'n' :: '\n' :: c0 :: rest) =
        (wsThenNL ('\n' :: c0 :: rest)).map (· + 6) := rfl
    rw [fenceTail, h1, hws]
    rfl

/-- The first pass maps a closing fence to itself (no trailing newline) or
deletes it together with its own line (trailing newline). -/
theorem sub1Run_closeFence (nl b : Bool) :
    sub1Run b (closeFence nl) = if nl then ['\n'] else closeFence false := by
  cases nl <;> cases b <;> decide

/-- The first substitution pass on a fence-wrapped body: the opening fence
line is deleted, the body is copied, and the closing fence loses its own
trailing newline (if any). -/
theorem sub1Run_fenceWrap (tag nl : Bool) {s : List Char} (hs : ∀ c ∈ s, c ≠ tick)
    (hh : isPySpace s.headI = false) (hne : s ≠ []) :
    sub1Run true (fenceWrap tag nl s) = s ++ (if nl then ['\n'] else closeFence false) := by
  cases s with
  | nil => simp at hne
  | cons c0 s' =>
    have hm : match1 (openFence tag ++ (c0 :: (s' ++ closeFence nl))) =
        some (openFence tag).length := match1_openFence tag _ hh
    unfold fenceWrap
    rw [List.append_assoc, List.cons_append, sub1Run_match hm, List.drop_left,
        ← List.cons_append, sub1Run_append (closeFence nl) true hs,
        sub1Run_closeFence]

end McpSeo

namespace McpSeo

/-! ### Helper lemma: last element across an append -/

/-- The last element of an append with a non-empty right part. -/
theorem getLastI_append_cons (a : List Char) (c : Char) (b : List Char) :
    (a ++ c :: b).getLastI = (c :: b).getLastI := by
  rw [List.getLastI_eq_getLast?, List.getLastI_eq_getLast?, List.getLast?_append]
  cases hgl : (c :: b).getLast? with
  | none => rw [List.getLast?_eq_getLast (c :: b) (by simp)] at hgl; cases hgl
  | some x => simp

/-! ### Claim theorems: the sanitizer (C8, C10) -/

/-- C8 (amended): the sanitizer is idempotent on backtick-free text (where it
acts as `strip`), and a backtick-free body with non-whitespace ends wrapped in
a triple-backtick fence block sanitizes to the body itself — identically
whether or not the opening fence carries a `python` language tag and whether
or not the closing fence is followed by a trailing newline.  (Idempotence
fails in general; see the counterexample.) -/
theorem clean_code_fence_equivalence (u s : List Char) (tag nl : Bool)
    (hu : ∀ c ∈ u, c ≠ tick) (hs : ∀ c ∈ s, c ≠ tick) (hne : s ≠ [])
    (hh : isPySpace s.headI = false) (hl : isPySpace s.getLastI = false) :
    cleanChars (cleanChars u) = cleanChars u
    ∧ cleanChars (fenceWrap tag nl s) = s := by
  constructor
  · rw [cleanChars_tickfree hu]
    have hsub : ∀ c ∈ pyStrip u, c ≠ tick := fun c hc => hu c (pyStrip_subset hc)
    rw [cleanChars_tickfree hsub, pyStrip_idem]
  · unfold cleanChars
    rw [sub1Run_fenceWrap tag nl hs hh hne]
    cases nl with
    | true =>
      rw [if_pos rfl, sub2Run_append ['\n'] hs (by decide)]
      have h2 : sub2Run ['\n'] = ['\n'] := by decide
      rw [h2, pyStrip_append_nl hne hh hl,
          stripTicksEnds_id (startsWithTicks_false hs) (endsWithTicks_false hs),
          pyStrip_id hne hh hl]
    | false =>
      rw [if_neg (by simp), sub2Run_append (closeFence false) hs (by decide)]
      have h2 : sub2Run (closeFence false) = [] := by decide
      rw [h2, List.append_nil, pyStrip_id hne hh hl,
          stripTicksEnds_id (startsWithTicks_false hs) (endsWithTicks_false hs),
          pyStrip_id hne hh hl]

/-- Witness for C8 at a concrete script body and both fence variants. -/
theorem clean_code_fence_equivalence_witness :
    cleanChars (cleanChars " x ".data) = cleanChars " x ".data
    ∧ cleanChars (fenceWrap true true "print(1)".data) = "print(1)".data :=
  clean_code_fence_equivalence " x ".data "print(1)".data true true
    (by decide) (by decide) (by decide) (by decide) (by decide)

/-- Counterexample to C8 as stated: `clean_generated_code` is not idempotent.
On `"``````x"` the first application leaves `"```x"` (the boundary split
removes only one group of three backticks), and a second application strips
further to `"x"`. -/
theorem clean_code_not_idempotent_counterexample :
    clean_generated_code "``````x" = "```x"
    ∧ clean_generated_code (clean_generated_code "``````x") = "x"
    ∧ clean_generated_code (clean_generated_code "``````x") ≠
        clean_generated_code "``````x" := by
  refine ⟨by decide, by decide, by decide⟩

/-- C10: the opening-fence substitution is applied with MULTILINE semantics at
every line start, so a fence line in the interior of the script is removed as
well: a backtick-free prefix ending in a newline, followed by a fence line
(with or without language tag), followed by a backtick-free suffix, sanitizes
to the prefix and suffix with the interior fence line deleted. -/
theorem clean_code_interior_fence (a b : List Char) (tag : Bool)
    (ha : ∀ c ∈ a, c ≠ tick) (hb : ∀ c ∈ b, c ≠ tick)
    (hane : a ≠ []) (hbne : b ≠ [])
    (hah : isPySpace a.headI = false) (hbh : isPySpace b.headI = false)
    (hbl : isPySpace b.getLastI = false) :
    cleanChars (a ++ '\n' :: (openFence tag ++ b)) = a ++ '\n' :: b := by
  cases b with
  | nil => simp at hbne
  | cons b0 b' =>
    have hm : match1 (openFence tag ++ b0 :: b') = some (openFence tag).length :=
      match1_openFence tag _ hbh
    unfold cleanChars
    rw [sub1Run_append ('\n' :: (openFence tag ++ b0 :: b')) true ha,
        sub1Run_cons_of_none _ (match1_none_head (by decide))]
    have hdec : (decide ('\n' = '\n')) = true := by decide
    rw [hdec, sub1Run_match hm, List.drop_left, sub1Run_tickfree true hb]
    have hall : ∀ c ∈ a ++ '\n' :: b0 :: b', c ≠ tick := by
      intro c hc
      rcases List.mem_append.mp hc with h | h
      · exact ha c h
      · rcases List.mem_cons.mp h with rfl | h2
        · decide
        · exact hb c h2
    rw [sub2Run_tickfree hall]
    have hne2 : a ++ '\n' :: b0 :: b' ≠ [] := by simp
    have hh2 : isPySpace (a ++ '\n' :: b0 :: b').headI = false := by
      cases a with
      | nil => simp at hane
      | cons a0 t => exact hah
    have hl2 : isPySpace (a ++ '\n' :: b0 :: b').getLastI = false := by
      rw [getLastI_append_cons,
          show ('\n' :: b0 :: b') = ['\n'] ++ b0 :: b' from rfl,
          getLastI_append_cons]
      exact hbl
    rw [pyStrip_id hne2 hh2 hl2,
        stripTicksEnds_id (startsWithTicks_false hall) (endsWithTicks_false hall),
        pyStrip_id hne2 hh2 hl2]

/-- Witness for C10: an interior bare fence line inside a two-line script is
deleted even though it is not a boundary wrapper. -/
theorem clean_code_interior_fence_witness :
    cleanChars ("q = 1".data ++ '\n' :: (openFence false ++ "y".data)) =
      "q = 1".data ++ '\n' :: "y".data :=
  clean_code_interior_fence "q = 1".data "y".data false
    (by decide) (by decide) (by decide) (by decide)
    (by decide) (by decide) (by decide)

end McpSeo
